/-
Verification of the batch-extraction core of `iden_challenge_final_script.py`.

The Python script polls a rendered page for product records, accumulates
them by positional delta (`current_products[len(all_products):]`), writes
numbered batch files, detects loading stalls via a consecutive-same-count
counter (threshold 3), and stops at a hard ceiling of 50000 records.

Shallow embedding conventions:
- records are an abstract type `α`; a snapshot is a `List α`;
- one poll of the page is a `PollView`: the element count seen by the
  `locator(...).count()` call, and the result of the in-page
  `page.evaluate` extraction (which can be an error marker, handled by
  returning an empty list, as `extract_all_products` does in Python);
- the mutable fields `all_products` / `batch_number` and the set of batch
  files written so far form `AccState`; file writes are modelled by
  appending a `BatchFile` value;
- the unbounded `while True:` loop is run on fuel; termination of the
  Python loop corresponds to the runner returning `some` for a large
  enough fuel;
- the in-page JavaScript product parser (`extract_all_products`'s evaluate
  script) is embedded over a `RawContainer` abstraction of the DOM
  fragment each product container provides, with JavaScript values
  modelled by `JValue` (JS numbers as exact rationals) and objects as
  insertion-ordered key/value lists with overwriting assignment.
-/
import Mathlib

namespace IdenChallenge

set_option maxRecDepth 8000

variable {α : Type}

/-- Hard ceiling on the number of products, `MAX_EXPECTED_PRODUCTS = 50000`. -/
def MAX_EXPECTED_PRODUCTS : Nat := 50000

/-- Stall threshold, `max_consecutive_same = 3`. -/
def max_consecutive_same : Nat := 3

/-- Result of the in-page `page.evaluate` call: either the list of parsed
records, or the error-marker object built in the script's `catch`. -/
inductive EvalResult (α : Type) where
  | records (items : List α)
  | errorMarker (msg : String)
deriving DecidableEq

/-- Python `extract_all_products`: returns the evaluated records, or `[]`
when the page script returned the `__error` marker. -/
def extract_all_products (r : EvalResult α) : List α :=
  match r with
  | EvalResult.records items => items
  | EvalResult.errorMarker _ => []

/-- One batch file as written by `save_batch_to_file` (metadata fields that
depend on wall-clock time or the base URL are omitted). -/
structure BatchFile (α : Type) where
  batch_number : Nat
  products_in_batch : Nat
  total_products_so_far : Nat
  products : List α
deriving DecidableEq

/-- The mutable extraction state: `self.all_products`, `self.batch_number`,
and the batch files written so far. -/
structure AccState (α : Type) where
  all_products : List α
  batch_number : Nat
  batches : List (BatchFile α)
deriving DecidableEq

/-- State set up in `__init__`: empty accumulator, `batch_number = 1`,
no batch files yet. -/
def initState : AccState α :=
  { all_products := [], batch_number := 1, batches := [] }

/-- Python `extract_and_save_current_batch(force_save)`, with the current
snapshot passed explicitly: compute the positional delta
`current_products[len(all_products):]`, return unchanged on an empty delta
without `force_save`, otherwise extend `all_products` and, when the delta
reaches `batch_size` or the save is forced, write one batch file and
increment `batch_number`. -/
def extract_and_save_current_batch (batch_size : Nat) (current_products : List α)
    (force_save : Bool) (s : AccState α) : AccState α :=
  let new_products := current_products.drop s.all_products.length
  if new_products.isEmpty && !force_save then s
  else
    let updated := s.all_products ++ new_products
    if decide (batch_size ≤ new_products.length) || force_save then
      { all_products := updated,
        batch_number := s.batch_number + 1,
        batches := s.batches ++ [{ batch_number := s.batch_number,
                                   products_in_batch := new_products.length,
                                   total_products_so_far := updated.length,
                                   products := new_products }] }
    else
      { s with all_products := updated }

/-- What one poll of the page yields: the element count and the result of
the in-page extraction script. -/
structure PollView (α : Type) where
  count : Nat
  evalResult : EvalResult α
deriving DecidableEq

/-- The batch-threshold check of the loop body:
`if current_count - len(self.all_products) >= self.batch_size:` followed by
a non-forced `extract_and_save_current_batch` (Python `int` subtraction is
modelled on `Int`). -/
def flushIfThreshold (batch_size : Nat) (pv : PollView α) (s : AccState α) : AccState α :=
  if (batch_size : Int) ≤ (pv.count : Int) - (s.all_products.length : Int) then
    extract_and_save_current_batch batch_size (extract_all_products pv.evalResult) false s
  else s

/-- One iteration of the `while True:` loop in
`extract_product_data_in_batches`, for the poll `pv`, given the local
variables `last_product_count` and `consecutive_same_count`.
`Sum.inr` is a `break` (with the final state); `Sum.inl` carries the next
iteration's `(last_product_count, consecutive_same_count, state)`. -/
def loopBody (batch_size : Nat) (pv : PollView α) (last_product_count : Nat)
    (consecutive_same_count : Nat) (s : AccState α) :
    (Nat × Nat × AccState α) ⊕ AccState α :=
  if pv.count = last_product_count ∧ max_consecutive_same ≤ consecutive_same_count + 1 then
    Sum.inr (extract_and_save_current_batch batch_size (extract_all_products pv.evalResult) true s)
  else if MAX_EXPECTED_PRODUCTS < pv.count then
    Sum.inr (extract_and_save_current_batch batch_size (extract_all_products pv.evalResult) true
      (flushIfThreshold batch_size pv s))
  else
    Sum.inl (pv.count,
      (if pv.count = last_product_count then consecutive_same_count + 1 else 0),
      flushIfThreshold batch_size pv s)

/-- Fuel-indexed runner for the polling loop. `page i` is what the page
yields at the `i`-th poll. On `break` it returns the index of the last
poll taken together with the final state; it returns `none` only when the
fuel runs out before the loop breaks. -/
def runLoopAux (batch_size : Nat) (page : Nat → PollView α) :
    Nat → Nat → Nat → Nat → AccState α → Option (Nat × AccState α)
  | 0, _, _, _, _ => none
  | fuel + 1, i, last_product_count, consecutive_same_count, s =>
    match loopBody batch_size (page i) last_product_count consecutive_same_count s with
    | Sum.inr final => some (i, final)
    | Sum.inl (lc, cc, s2) => runLoopAux batch_size page fuel (i + 1) lc cc s2

/-- Python `extract_product_data_in_batches`, from the initial state with
`last_product_count = 0` and `consecutive_same_count = 0`. -/
def extract_product_data_in_batches (batch_size : Nat) (page : Nat → PollView α)
    (fuel : Nat) : Option (Nat × AccState α) :=
  runLoopAux batch_size page fuel 0 0 0 initState

/-- A well-behaved page: at poll `i` the count matches the snapshot
`snaps i` and the in-page extraction returns exactly that snapshot. -/
def pageOfSnaps (snaps : Nat → List α) (i : Nat) : PollView α :=
  { count := (snaps i).length, evalResult := EvalResult.records (snaps i) }

/-- The consolidated output written by `create_final_output` (time and URL
metadata omitted). -/
structure FinalOutput (α : Type) where
  total_products : Nat
  total_batches : Nat
  batch_size : Nat
  products : List α
deriving DecidableEq

/-- Python `create_final_output`: totals from the final state; note
`total_batches = batch_number - 1`. -/
def create_final_output (batch_size : Nat) (s : AccState α) : FinalOutput α :=
  { total_products := s.all_products.length,
    total_batches := s.batch_number - 1,
    batch_size := batch_size,
    products := s.all_products }

/-- Snapshot sequence of end-to-end scenario A: lengths
`[0, 100, 250, 250, 250, 250]`, records identified by their index. -/
def snapsA : Nat → List Nat := fun i =>
  if i = 0 then [] else if i = 1 then List.range 100 else List.range 250

/-- A tiny stable snapshot sequence used to instantiate general theorems. -/
def snapsW : Nat → List Nat := fun _ => [1, 2]

/-- JavaScript values as produced by the in-page parser: strings, the
integers produced by `parseInt`, the numbers produced by `parseFloat`
(modelled as exact rationals), and `null`. -/
inductive JValue where
  | null
  | str (s : String)
  | int (n : Int)
  | num (q : ℚ)
deriving DecidableEq

/-- Reading a property of a JS object modelled as an insertion-ordered
key/value list: the first entry with the key (keys are unique by
construction of `setKey`). -/
def getKey (obj : List (String × JValue)) (k : String) : Option JValue :=
  match obj with
  | [] => none
  | (k2, v) :: rest => if k2 = k then some v else getKey rest k

/-- JS property assignment `obj[k] = v`: overwrite in place when the key
exists, otherwise append the new entry. -/
def setKey (obj : List (String × JValue)) (k : String) (v : JValue) :
    List (String × JValue) :=
  if obj.any (fun kv => kv.1 = k) then
    obj.map (fun kv => if kv.1 = k then (k, v) else kv)
  else obj ++ [(k, v)]

/-- JS `String.prototype.trim` (strip leading and trailing whitespace),
written structurally over the character list so that it evaluates. -/
def trimStr (s : String) : String :=
  String.mk (((s.data.dropWhile Char.isWhitespace).reverse.dropWhile
    Char.isWhitespace).reverse)

/-- JS `String.prototype.toLowerCase`, on the character list. -/
def toLowerStr (s : String) : String :=
  String.mk (s.data.map Char.toLower)

/-- Does `pat` occur (case-sensitively) at the start of `cs`? -/
def matchesAt : List Char → List Char → Bool
  | [], _ => true
  | _ :: _, [] => false
  | p :: ps, c :: cs => (c = p) && matchesAt ps cs

/-- Does `pat` occur anywhere in `cs`? -/
def containsSeq (pat : List Char) : List Char → Bool
  | [] => pat.isEmpty
  | c :: cs => matchesAt pat (c :: cs) || containsSeq pat cs

/-- Splitter for JS `String.prototype.split` with a literal separator;
`fuel` bounds the recursion (one unit per character suffices). -/
def splitOnCharsAux (sep : List Char) : Nat → List Char → List Char → List (List Char)
  | 0, _, acc => [acc.reverse]
  | _ + 1, [], acc => [acc.reverse]
  | fuel + 1, c :: cs, acc =>
    if matchesAt sep (c :: cs) then
      acc.reverse :: splitOnCharsAux sep fuel ((c :: cs).drop sep.length) []
    else
      splitOnCharsAux sep fuel cs (c :: acc)

/-- JS `s.split(sep)` for a nonempty literal separator. -/
def splitOnStr (s sep : String) : List String :=
  (splitOnCharsAux sep.data (s.data.length + 1) s.data []).map String.mk

/-- Numeric value of a digit string (most significant first). -/
def digitsVal (cs : List Char) : Nat :=
  cs.foldl (fun a c => a * 10 + (c.toNat - '0'.toNat)) 0

/-- JS whitespace skipped by `parseInt` / `parseFloat` (common cases). -/
def isJsSpace (c : Char) : Bool :=
  c = ' ' || c = '\t' || c = '\n' || c = '\r'

/-- JavaScript `parseInt(s, 10)`: skip whitespace, optional sign, then the
leading run of decimal digits; `NaN` (here `none`) when there is none. -/
def parseIntJS (s : String) : Option Int :=
  let cs := s.data.dropWhile (fun c => isJsSpace c)
  let signAndRest : Int × List Char :=
    match cs with
    | '-' :: rest => (-1, rest)
    | '+' :: rest => (1, rest)
    | _ => (1, cs)
  let ds := signAndRest.2.takeWhile Char.isDigit
  if ds.isEmpty then none else some (signAndRest.1 * (digitsVal ds : Int))

/-- JavaScript `parseFloat(s)` restricted to the inputs it receives here
(strings over digits, `.` and `-` after cleaning): skip whitespace,
optional sign, integer digits, then an optional fraction after a dot;
`NaN` (here `none`) when no digit is found at all. -/
def parseFloatJS (s : String) : Option ℚ :=
  let cs := s.data.dropWhile (fun c => isJsSpace c)
  let signAndRest : Int × List Char :=
    match cs with
    | '-' :: rest => (-1, rest)
    | '+' :: rest => (1, rest)
    | _ => (1, cs)
  let d1 := signAndRest.2.takeWhile Char.isDigit
  let afterD1 := signAndRest.2.dropWhile Char.isDigit
  let d2 := match afterD1 with
    | '.' :: rest => rest.takeWhile Char.isDigit
    | _ => []
  if d1.isEmpty && d2.isEmpty then none
  else
    some (mkRat (signAndRest.1 * ((digitsVal d1 * 10 ^ d2.length + digitsVal d2 : Nat) : Int))
      (10 ^ d2.length))

/-- The cleaning step `price.replace(/[^0-9.-]+/g, '')`: keep only decimal
digits, dots and minus signs. -/
def cleanNumeric (s : String) : String :=
  String.mk (s.data.filter (fun c => c.isDigit || c = '.' || c = '-'))

/-- Case-insensitive match of `pat` against the start of `cs`. -/
def matchesCI : List Char → List Char → Bool
  | [], _ => true
  | _ :: _, [] => false
  | p :: ps, c :: cs => (c.toLower = p.toLower) && matchesCI ps cs

/-- Drop the first case-insensitive occurrence of `pat` from a character
list (JS `str.replace(/pat/i, '')` for a literal pattern). -/
def removeFirstCIAux (pat : List Char) : List Char → List Char
  | [] => []
  | c :: cs =>
    if matchesCI pat (c :: cs) then (c :: cs).drop pat.length
    else c :: removeFirstCIAux pat cs

/-- JS `s.replace(/pat/i, '')` for a literal pattern `pat`. -/
def removeFirstCI (pat s : String) : String :=
  String.mk (removeFirstCIAux pat.data s.data)

/-- JS `s.toLowerCase().includes(pat)` for a lowercase literal `pat`. -/
def hasSubstrCI (s pat : String) : Bool :=
  containsSeq pat.data (toLowerStr s).data

/-- Key derivation `label.toLowerCase().replace(/s+/g, '_')` as written in the page
script: after lower-casing, each maximal run of the letter `s` is replaced
by one underscore (the regex has no backslash, so it matches the letter
`s`, not whitespace). `inRun` records whether the previous character was
part of an `s` run. -/
def collapseSRuns : List Char → Bool → List Char
  | [], _ => []
  | c :: cs, inRun =>
    if c = 's' then
      if inRun then collapseSRuns cs true else '_' :: collapseSRuns cs true
    else c :: collapseSRuns cs false

/-- Key under which a detail section with (trimmed) label `label` is
stored: `label.toLowerCase().replace(/s+/g, '_')`. -/
def jsKeyOf (label : String) : String :=
  String.mk (collapseSRuns (toLowerStr label).data false)

/-- The separator literal used by `infoEl.innerText.split(...)` in the
script (the UTF-8 bytes of a bullet read back as three Latin-1
characters, exactly as they appear in the source file). -/
def bulletLit : String := "â€¢"

/-- One `div.flex.flex-col.items-center` detail block: the label span and
the value span, each `none` when the span is missing. -/
structure RawSection where
  label : Option String
  value : Option String
deriving DecidableEq

/-- The parts of one product container the page script reads: the name
heading, the id/category info line, and the detail blocks. -/
structure RawContainer where
  name : Option String
  info : Option String
  sections : List RawSection
deriving DecidableEq

/-- Step `if (nameEl) product.name = nameEl.innerText.trim();` of the page script. -/
def nameStep (name : Option String) (product : List (String × JValue)) :
    List (String × JValue) :=
  match name with
  | some n => setKey product "name" (JValue.str (trimStr n))
  | none => product

/-- The id/category block: split the info line on the bullet literal, trim
the parts and drop empty ones; when the first part contains `id:`
(case-insensitively), parse the rest as the id (`null` when `parseInt`
gives `NaN`); the second part, when present, is the category. -/
def infoStep (info : Option String) (product : List (String × JValue)) :
    List (String × JValue) :=
  match info with
  | none => product
  | some infoText =>
    let parts := ((splitOnStr infoText bulletLit).map trimStr).filter (fun p => ¬ p = "")
    let product :=
      match parts[0]? with
      | some p0 =>
        if hasSubstrCI p0 "id:" then
          match parseIntJS (trimStr (removeFirstCI "id:" p0)) with
          | some n => setKey product "id" (JValue.int n)
          | none => setKey product "id" JValue.null
        else product
      | none => product
    match parts[1]? with
    | some p1 => setKey product "category" (JValue.str p1)
    | none => product

/-- The detail-block loop: for each section with a nonempty trimmed label,
store the (trimmed) value — `null` when the value span is missing — under
`jsKeyOf label`. -/
def sectionsStep (sections : List RawSection) (product : List (String × JValue)) :
    List (String × JValue) :=
  sections.foldl (fun prod sec =>
    match sec.label with
    | none => prod
    | some lbl =>
      if trimStr lbl = "" then prod
      else
        setKey prod (jsKeyOf (trimStr lbl))
          (match sec.value with
           | some w => JValue.str (trimStr w)
           | none => JValue.null)) product

/-- The optional numeric price parse: when `product.price` is a nonempty
string, clean it and `parseFloat` it; `price_value` is the number, or
`null` when the parse gives `NaN`. -/
def priceStep (product : List (String × JValue)) : List (String × JValue) :=
  match getKey product "price" with
  | some (JValue.str p) =>
    if ¬ p = "" then
      match parseFloatJS (cleanNumeric p) with
      | some q => setKey product "price_value" (JValue.num q)
      | none => setKey product "price_value" JValue.null
    else product
  | _ => product

/-- The whole per-container mapping of the page script, with `now` the
`new Date().toISOString()` capture timestamp. -/
def productOfContainer (now : String) (c : RawContainer) : List (String × JValue) :=
  setKey (priceStep (sectionsStep c.sections (infoStep c.info (nameStep c.name []))))
    "extracted_at" (JValue.str now)

/-- Whatever the flags, one `extract_and_save_current_batch` call extends
`all_products` by exactly the positional delta of the snapshot. -/
theorem easc_all_products (batch_size : Nat) (snap : List α) (f : Bool) (s : AccState α) :
    (extract_and_save_current_batch batch_size snap f s).all_products
      = s.all_products ++ snap.drop s.all_products.length := by
  simp only [extract_and_save_current_batch]
  by_cases h : ((snap.drop s.all_products.length).isEmpty && !f) = true
  · rw [if_pos h]
    rcases Bool.and_eq_true_iff.mp h with ⟨he, _⟩
    rw [List.isEmpty_iff.mp he, List.append_nil]
  · rw [if_neg h]
    split <;> rfl

/-- When the snapshot extends the accumulated collection positionally, the
call updates `all_products` to exactly the snapshot. -/
theorem easc_all_of_extends (batch_size : Nat) (snap : List α) (f : Bool) (s : AccState α)
    (h : ∃ t, snap = s.all_products ++ t) :
    (extract_and_save_current_batch batch_size snap f s).all_products = snap := by
  obtain ⟨t, rfl⟩ := h
  rw [easc_all_products, List.drop_left]

/-- Length bookkeeping for one call. -/
theorem easc_length (batch_size : Nat) (snap : List α) (f : Bool) (s : AccState α) :
    (extract_and_save_current_batch batch_size snap f s).all_products.length
      = s.all_products.length + (snap.length - s.all_products.length) := by
  rw [easc_all_products, List.length_append, List.length_drop]

/-- The loop body on the stall path: same count, counter at the threshold. -/
theorem loopBody_stall (batch_size : Nat) (pv : PollView α) (last cc : Nat) (s : AccState α)
    (h1 : pv.count = last) (h2 : max_consecutive_same ≤ cc + 1) :
    loopBody batch_size pv last cc s
      = Sum.inr (extract_and_save_current_batch batch_size
          (extract_all_products pv.evalResult) true s) := by
  simp only [loopBody]
  rw [if_pos ⟨h1, h2⟩]

/-- The loop body on the ceiling path: not a stall, count above the hard
ceiling. -/
theorem loopBody_ceiling (batch_size : Nat) (pv : PollView α) (last cc : Nat) (s : AccState α)
    (h1 : ¬ (pv.count = last ∧ max_consecutive_same ≤ cc + 1))
    (h2 : MAX_EXPECTED_PRODUCTS < pv.count) :
    loopBody batch_size pv last cc s
      = Sum.inr (extract_and_save_current_batch batch_size
          (extract_all_products pv.evalResult) true (flushIfThreshold batch_size pv s)) := by
  simp only [loopBody]
  rw [if_neg h1, if_pos h2]

/-- The loop body on the continue path: not a stall, count within the
ceiling. -/
theorem loopBody_cont (batch_size : Nat) (pv : PollView α) (last cc : Nat) (s : AccState α)
    (h1 : ¬ (pv.count = last ∧ max_consecutive_same ≤ cc + 1))
    (h2 : ¬ MAX_EXPECTED_PRODUCTS < pv.count) :
    loopBody batch_size pv last cc s
      = Sum.inl (pv.count, (if pv.count = last then cc + 1 else 0),
          flushIfThreshold batch_size pv s) := by
  simp only [loopBody]
  rw [if_neg h1, if_neg h2]

/-- For a well-behaved page the poll count is the snapshot length. -/
theorem count_pageOfSnaps (snaps : Nat → List α) (i : Nat) :
    (pageOfSnaps snaps i).count = (snaps i).length := rfl

/-- For a well-behaved page the extraction yields the snapshot. -/
theorem extract_pageOfSnaps (snaps : Nat → List α) (i : Nat) :
    extract_all_products (pageOfSnaps snaps i).evalResult = snaps i := rfl

/-- The one-step unfolding of the runner. -/
theorem runLoopAux_succ (batch_size : Nat) (page : Nat → PollView α)
    (fuel i last cc : Nat) (s : AccState α) :
    runLoopAux batch_size page (fuel + 1) i last cc s
      = match loopBody batch_size (page i) last cc s with
        | Sum.inr final => some (i, final)
        | Sum.inl (lc, cc2, s2) => runLoopAux batch_size page fuel (i + 1) lc cc2 s2 := rfl

/-- The threshold check preserves the invariant that the current snapshot
extends the accumulated collection. -/
theorem flushIfThreshold_extends (batch_size : Nat) (snaps : Nat → List α) (i : Nat)
    (s : AccState α) (h : ∃ t, snaps i = s.all_products ++ t) :
    ∃ t, snaps i = (flushIfThreshold batch_size (pageOfSnaps snaps i) s).all_products ++ t := by
  unfold flushIfThreshold
  split
  · refine ⟨[], ?_⟩
    rw [extract_pageOfSnaps, easc_all_of_extends _ _ _ _ h, List.append_nil]
  · exact h

/-- Main invariant lemma for claim C1: starting from any state whose
accumulated collection is a positional piece of the current snapshot, if
the runner halts then the final accumulated collection is exactly the
snapshot of the last poll taken. -/
theorem runLoopAux_final_eq_last_snapshot (batch_size : Nat) (snaps : Nat → List α)
    (hstable : ∀ i, ∃ t, snaps (i + 1) = snaps i ++ t) :
    ∀ (fuel i last cc : Nat) (s : AccState α) (k : Nat) (final : AccState α),
      (∃ t, snaps i = s.all_products ++ t) →
      runLoopAux batch_size (pageOfSnaps snaps) fuel i last cc s = some (k, final) →
      final.all_products = snaps k := by
  intro fuel
  induction fuel with
  | zero => intro i last cc s k final _ hrun; exact absurd hrun (by simp [runLoopAux])
  | succ f ih =>
    intro i last cc s k final hext hrun
    rw [runLoopAux_succ] at hrun
    by_cases hstall : (pageOfSnaps snaps i).count = last ∧ max_consecutive_same ≤ cc + 1
    · rw [loopBody_stall _ _ _ _ _ hstall.1 hstall.2] at hrun
      simp only [Option.some.injEq, Prod.mk.injEq] at hrun
      rw [← hrun.2, ← hrun.1, extract_pageOfSnaps]
      exact easc_all_of_extends _ _ _ _ hext
    · by_cases hceil : MAX_EXPECTED_PRODUCTS < (pageOfSnaps snaps i).count
      · rw [loopBody_ceiling _ _ _ _ _ hstall hceil] at hrun
        simp only [Option.some.injEq, Prod.mk.injEq] at hrun
        rw [← hrun.2, ← hrun.1, extract_pageOfSnaps]
        exact easc_all_of_extends _ _ _ _ (flushIfThreshold_extends _ _ _ _ hext)
      · rw [loopBody_cont _ _ _ _ _ hstall hceil] at hrun
        refine ih (i + 1) _ _ _ k final ?_ hrun
        obtain ⟨t2, h2⟩ := flushIfThreshold_extends batch_size snaps i s hext
        obtain ⟨t3, h3⟩ := hstable i
        exact ⟨t2 ++ t3, by rw [h3, h2, List.append_assoc]⟩

/-- The runner delivers a result whenever the fuel exceeds the loop
measure; counts are the snapshot lengths, assumed non-decreasing. -/
theorem runLoopAux_isSome (batch_size : Nat) (snaps : Nat → List α)
    (mono : ∀ i, (snaps i).length ≤ (snaps (i + 1)).length) :
    ∀ (fuel i last cc : Nat) (s : AccState α),
      last ≤ (snaps i).length → last ≤ 50000 → cc ≤ 2 →
      4 * (50001 - last) + (3 - cc) < fuel →
      (runLoopAux batch_size (pageOfSnaps snaps) fuel i last cc s).isSome = true := by
  intro fuel
  induction fuel with
  | zero => intro i last cc s _ _ _ hm; omega
  | succ f ih =>
    intro i last cc s hil hl50 hcc hm
    rw [runLoopAux_succ]
    by_cases hstall : (pageOfSnaps snaps i).count = last ∧ max_consecutive_same ≤ cc + 1
    · rw [loopBody_stall _ _ _ _ _ hstall.1 hstall.2]
      rfl
    · by_cases hceil : MAX_EXPECTED_PRODUCTS < (pageOfSnaps snaps i).count
      · rw [loopBody_ceiling _ _ _ _ _ hstall hceil]
        rfl
      · rw [loopBody_cont _ _ _ _ _ hstall hceil]
        have hcount : (pageOfSnaps snaps i).count = (snaps i).length := rfl
        rw [hcount] at hstall hceil ⊢
        have hle : (snaps i).length ≤ 50000 := by
          simpa [MAX_EXPECTED_PRODUCTS] using hceil
        by_cases heq : (snaps i).length = last
        · have hlt3 : ¬ max_consecutive_same ≤ cc + 1 := fun h => hstall ⟨heq, h⟩
          have hcc1 : cc < 2 := by simpa [max_consecutive_same] using hlt3
          rw [if_pos heq]
          exact ih (i + 1) _ _ _ (mono i) hle (by omega) (by omega)
        · rw [if_neg heq]
          have hlast : last < (snaps i).length := lt_of_le_of_ne hil (fun h => heq h.symm)
          refine ih (i + 1) _ _ _ (mono i) hle (by omega) (by omega)

/-- C1: over a positionally stable snapshot sequence (each snapshot
extends the previous one by appending records at the end — which makes the
lengths non-decreasing), whenever the extraction loop terminates, the
accumulated `all_products` equals the full content of the last snapshot
taken: no record duplicated, none missing. -/
theorem extraction_accumulates_last_snapshot (batch_size fuel k : Nat)
    (snaps : Nat → List α) (final : AccState α)
    (hstable : ∀ i, ∃ t, snaps (i + 1) = snaps i ++ t)
    (hrun : extract_product_data_in_batches batch_size (pageOfSnaps snaps) fuel
      = some (k, final)) :
    final.all_products = snaps k :=
  runLoopAux_final_eq_last_snapshot batch_size snaps hstable fuel 0 0 0 initState k final
    ⟨snaps 0, rfl⟩ hrun

/-- Witness for C1 on the constant sequence `snapsW` with batch size 1:
the loop stops at poll 3 and has accumulated exactly `snapsW 3`. -/
theorem extraction_accumulates_last_snapshot_witness :
    ∃ final, extract_product_data_in_batches 1 (pageOfSnaps snapsW) 10 = some (3, final)
      ∧ final.all_products = snapsW 3 :=
  ⟨_, rfl, extraction_accumulates_last_snapshot 1 10 3 snapsW _ (fun _ => ⟨[], rfl⟩) rfl⟩

/-- C4: for every page whose snapshot lengths are non-decreasing, the
extraction loop terminates — fuel 200008 (more than the loop measure
4·50001 + 3) always suffices for the runner to deliver a result, via the
stall exit or the 50000-record ceiling exit. -/
theorem extraction_loop_terminates (batch_size : Nat) (snaps : Nat → List α)
    (mono : ∀ i, (snaps i).length ≤ (snaps (i + 1)).length)
    (fuel : Nat) (hfuel : 200007 < fuel) :
    (extract_product_data_in_batches batch_size (pageOfSnaps snaps) fuel).isSome = true :=
  runLoopAux_isSome batch_size snaps mono fuel 0 0 0 initState
    (Nat.zero_le _) (Nat.zero_le _) (Nat.zero_le _) (by omega)

/-- Witness for C4: an empty source terminates within the stated fuel. -/
theorem extraction_loop_terminates_witness :
    (extract_product_data_in_batches 250 (pageOfSnaps (fun _ => ([] : List Nat)))
      200008).isSome = true :=
  extraction_loop_terminates 250 (fun _ => []) (fun _ => Nat.le_refl 0) 200008 (by omega)

/-- C5: as soon as a poll observes a count above the ceiling 50000, the
loop force-flushes and stops at that very poll (the returned poll index is
the current one, so no further poll is taken), and the final accumulated
total equals the count visible at that instant. -/
theorem ceiling_forces_flush_and_stop (batch_size fuel i last cc : Nat)
    (snaps : Nat → List α) (s : AccState α)
    (hceil : 50000 < (snaps i).length)
    (hlen : s.all_products.length ≤ (snaps i).length) :
    ∃ final, runLoopAux batch_size (pageOfSnaps snaps) (fuel + 1) i last cc s
        = some (i, final)
      ∧ final.all_products.length = (snaps i).length := by
  rw [runLoopAux_succ]
  by_cases hstall : (pageOfSnaps snaps i).count = last ∧ max_consecutive_same ≤ cc + 1
  · rw [loopBody_stall _ _ _ _ _ hstall.1 hstall.2]
    refine ⟨_, rfl, ?_⟩
    rw [extract_pageOfSnaps, easc_length]
    omega
  · have hc : MAX_EXPECTED_PRODUCTS < (pageOfSnaps snaps i).count := by
      rw [count_pageOfSnaps]
      simpa [MAX_EXPECTED_PRODUCTS] using hceil
    rw [loopBody_ceiling _ _ _ _ _ hstall hc]
    refine ⟨_, rfl, ?_⟩
    have hf : (flushIfThreshold batch_size (pageOfSnaps snaps i) s).all_products.length
        ≤ (snaps i).length := by
      unfold flushIfThreshold
      split
      · rw [extract_pageOfSnaps, easc_length]
        omega
      · exact hlen
    rw [extract_pageOfSnaps, easc_length]
    omega

/-- Witness for C5: a source showing 50001 records at poll 0. -/
theorem ceiling_forces_flush_and_stop_witness :
    ∃ final, runLoopAux 250 (pageOfSnaps (fun _ => List.replicate 50001 (0 : Nat))) 1 0 0 0
        initState = some (0, final)
      ∧ final.all_products.length = (List.replicate 50001 (0 : Nat)).length :=
  ceiling_forces_flush_and_stop 250 0 0 0 0 (fun _ => List.replicate 50001 0) initState
    (by rw [List.length_replicate]; omega)
    (by rw [List.length_replicate]; exact Nat.zero_le 50001)

/-- C6: flushing is idempotent on the accumulated collection — after one
`extract_and_save_current_batch` call on a snapshot, a second call with
the same snapshot computes an empty delta (the delta is the snapshot
sliced at the current accumulated length) and leaves `all_products`
unchanged, whatever the force flags. -/
theorem flush_idempotent_on_accumulated (batch_size : Nat) (snap : List α)
    (f1 f2 : Bool) (s : AccState α) :
    snap.drop (extract_and_save_current_batch batch_size snap f1 s).all_products.length = []
    ∧ (extract_and_save_current_batch batch_size snap f2
          (extract_and_save_current_batch batch_size snap f1 s)).all_products
        = (extract_and_save_current_batch batch_size snap f1 s).all_products := by
  have hlen : snap.length
      ≤ (extract_and_save_current_batch batch_size snap f1 s).all_products.length := by
    rw [easc_length]
    omega
  have hdrop :
      snap.drop (extract_and_save_current_batch batch_size snap f1 s).all_products.length
        = [] := List.drop_eq_nil_of_le hlen
  exact ⟨hdrop, by rw [easc_all_products, hdrop, List.append_nil]⟩

/-- C3: the stall counter is reset to 0 by any poll whose count differs
from the previous one, is incremented on an unchanged count, and the loop
breaks through the stall path exactly when the incremented counter reaches
3 — in particular a second consecutive identical count (counter 1 → 2)
does not terminate the loop. -/
theorem stall_detector_reset_and_threshold (batch_size last cc : Nat)
    (pv : PollView α) (s : AccState α) :
    (¬ pv.count = last → pv.count ≤ 50000 →
        loopBody batch_size pv last cc s
          = Sum.inl (pv.count, 0, flushIfThreshold batch_size pv s))
    ∧ (pv.count = last → cc + 1 < 3 → pv.count ≤ 50000 →
        loopBody batch_size pv last cc s
          = Sum.inl (pv.count, cc + 1, flushIfThreshold batch_size pv s))
    ∧ (pv.count = last → 3 ≤ cc + 1 →
        loopBody batch_size pv last cc s
          = Sum.inr (extract_and_save_current_batch batch_size
              (extract_all_products pv.evalResult) true s)) := by
  refine ⟨?_, ?_, ?_⟩
  · intro hne hle
    rw [loopBody_cont _ _ _ _ _ (fun h => hne h.1)
        (by simp only [MAX_EXPECTED_PRODUCTS]; omega), if_neg hne]
  · intro heq hlt hle
    have h1 : ¬ (pv.count = last ∧ max_consecutive_same ≤ cc + 1) := by
      intro h
      simp only [max_consecutive_same] at h
      omega
    rw [loopBody_cont _ _ _ _ _ h1 (by simp only [MAX_EXPECTED_PRODUCTS]; omega), if_pos heq]
  · intro heq h3
    exact loopBody_stall _ _ _ _ _ heq (by simpa [max_consecutive_same] using h3)

/-- Witness for C3: reset on a changed count, increment below the
threshold, and break exactly at the third unchanged poll. -/
theorem stall_detector_reset_and_threshold_witness :
    loopBody 250 ⟨7, EvalResult.records ([] : List Nat)⟩ 5 0 initState
        = Sum.inl (7, 0, flushIfThreshold 250 ⟨7, EvalResult.records []⟩ initState)
    ∧ loopBody 250 ⟨5, EvalResult.records ([] : List Nat)⟩ 5 1 initState
        = Sum.inl (5, 2, flushIfThreshold 250 ⟨5, EvalResult.records []⟩ initState)
    ∧ loopBody 250 ⟨5, EvalResult.records ([] : List Nat)⟩ 5 2 initState
        = Sum.inr (extract_and_save_current_batch 250
            (extract_all_products (EvalResult.records [])) true initState) :=
  ⟨(stall_detector_reset_and_threshold 250 5 0 ⟨7, EvalResult.records []⟩ initState).1
      (by decide) (by decide),
   (stall_detector_reset_and_threshold 250 5 1 ⟨5, EvalResult.records []⟩ initState).2.1
      rfl (by decide) (by decide),
   (stall_detector_reset_and_threshold 250 5 2 ⟨5, EvalResult.records []⟩ initState).2.2
      rfl (by decide)⟩

/-- C9: when the in-page extraction of a poll throws, `extract_all_products`
returns the empty record list, a non-forced batch call leaves the state
fully unchanged, and the loop body continues to the next iteration (under
the count conditions that keep the loop alive) instead of aborting. -/
theorem poll_error_empty_and_loop_continues (batch_size : Nat) (e : String)
    (last cc c : Nat) (s : AccState α)
    (h1 : c = last → cc + 1 < 3) (h2 : c ≤ 50000) :
    extract_all_products (EvalResult.errorMarker e : EvalResult α) = []
    ∧ extract_and_save_current_batch batch_size ([] : List α) false s = s
    ∧ loopBody batch_size ⟨c, EvalResult.errorMarker e⟩ last cc s
        = Sum.inl (c, (if c = last then cc + 1 else 0), s) := by
  have hempty : extract_and_save_current_batch batch_size ([] : List α) false s = s := by
    simp [extract_and_save_current_batch, List.drop_nil]
  refine ⟨rfl, hempty, ?_⟩
  have hstall : ¬ ((⟨c, EvalResult.errorMarker e⟩ : PollView α).count = last
      ∧ max_consecutive_same ≤ cc + 1) := by
    intro h
    have := h1 h.1
    simp only [max_consecutive_same] at h
    omega
  have hflush : flushIfThreshold batch_size (⟨c, EvalResult.errorMarker e⟩ : PollView α) s
      = s := by
    unfold flushIfThreshold
    split
    · exact hempty
    · rfl
  rw [loopBody_cont _ _ _ _ _ hstall (by simp only [MAX_EXPECTED_PRODUCTS]; omega), hflush]

/-- Witness for C9 at a concrete failed poll. -/
theorem poll_error_empty_and_loop_continues_witness :
    extract_all_products (EvalResult.errorMarker "boom" : EvalResult Nat) = []
    ∧ extract_and_save_current_batch 250 ([] : List Nat) false initState = initState
    ∧ loopBody 250 ⟨5, EvalResult.errorMarker "boom"⟩ 5 0 (initState : AccState Nat)
        = Sum.inl (5, (if 5 = 5 then 0 + 1 else 0), initState) :=
  poll_error_empty_and_loop_continues 250 "boom" 5 0 5 initState
    (fun _ => by omega) (by omega)

/-- C10: a force-flush that finds an empty delta still writes a batch file
with an empty product list and `products_in_batch = 0`, incrementing the
batch number; a source showing zero products for three consecutive polls
ends with `total_products = 0`, exactly one such empty batch file, and
`total_batches = 1` in the final output. -/
theorem forced_flush_empty_batch_file :
    (∀ (batch_size : Nat) (snap : List α) (s : AccState α),
        snap.drop s.all_products.length = [] →
        extract_and_save_current_batch batch_size snap true s
          = { all_products := s.all_products,
              batch_number := s.batch_number + 1,
              batches := s.batches ++ [{ batch_number := s.batch_number,
                                         products_in_batch := 0,
                                         total_products_so_far := s.all_products.length,
                                         products := [] }] })
    ∧ extract_product_data_in_batches 250 (pageOfSnaps (fun _ => ([] : List Nat))) 10
        = some (2, { all_products := [], batch_number := 2,
                     batches := [{ batch_number := 1, products_in_batch := 0,
                                   total_products_so_far := 0, products := [] }] })
    ∧ create_final_output 250
        ({ all_products := ([] : List Nat), batch_number := 2,
           batches := [{ batch_number := 1, products_in_batch := 0,
                         total_products_so_far := 0, products := [] }] })
        = { total_products := 0, total_batches := 1, batch_size := 250, products := [] } := by
  refine ⟨?_, rfl, rfl⟩
  intro bs snap s h
  simp [extract_and_save_current_batch, h]

/-- Unfolding of `getKey` at a cons cell. -/
theorem getKey_cons (p : String × JValue) (rest : List (String × JValue)) (k : String) :
    getKey (p :: rest) k = if p.1 = k then some p.2 else getKey rest k := rfl

/-- Reading a key untouched by the overwrite map leaves the lookup
unchanged. -/
theorem getKey_map_set_ne (k k2 : String) (v : JValue) (h : ¬ k2 = k) :
    ∀ obj : List (String × JValue),
      getKey (obj.map (fun kv => if kv.1 = k then (k, v) else kv)) k2 = getKey obj k2 := by
  intro obj
  induction obj with
  | nil => rfl
  | cons a rest ih =>
    obtain ⟨ak, av⟩ := a
    rw [List.map_cons, getKey_cons, getKey_cons]
    by_cases ha : ak = k
    · subst ha
      rw [if_pos (show ((ak, av) : String × JValue).1 = ak from rfl)]
      dsimp only
      rw [if_neg (fun hh => h hh.symm), if_neg (fun hh => h hh.symm)]
      exact ih
    · rw [if_neg (show ¬ ((ak, av) : String × JValue).1 = k from ha)]
      dsimp only
      by_cases hk2 : ak = k2
      · rw [if_pos hk2, if_pos hk2]
      · rw [if_neg hk2, if_neg hk2]
        exact ih

/-- When the key occurs, the overwrite map makes its lookup the new
value. -/
theorem getKey_map_set_self (k : String) (v : JValue) :
    ∀ obj : List (String × JValue), obj.any (fun kv => kv.1 = k) = true →
      getKey (obj.map (fun kv => if kv.1 = k then (k, v) else kv)) k = some v := by
  intro obj
  induction obj with
  | nil => intro h; exact absurd h (by simp)
  | cons a rest ih =>
    intro h
    obtain ⟨ak, av⟩ := a
    rw [List.map_cons, getKey_cons]
    by_cases ha : ak = k
    · subst ha
      rw [if_pos (show ((ak, av) : String × JValue).1 = ak from rfl)]
      dsimp only
      rw [if_pos rfl]
    · rw [if_neg (show ¬ ((ak, av) : String × JValue).1 = k from ha)]
      dsimp only
      rw [if_neg ha]
      refine ih ?_
      simpa [ha] using h

/-- Lookup across an append. -/
theorem getKey_append (obj1 obj2 : List (String × JValue)) (k : String) :
    getKey (obj1 ++ obj2) k
      = match getKey obj1 k with
        | some v => some v
        | none => getKey obj2 k := by
  induction obj1 with
  | nil => rfl
  | cons a rest ih =>
    obtain ⟨ak, av⟩ := a
    rw [List.cons_append, getKey_cons, getKey_cons]
    by_cases ha : ak = k
    · rw [if_pos (show ((ak, av) : String × JValue).1 = k from ha),
          if_pos (show ((ak, av) : String × JValue).1 = k from ha)]
    · rw [if_neg (show ¬ ((ak, av) : String × JValue).1 = k from ha),
          if_neg (show ¬ ((ak, av) : String × JValue).1 = k from ha)]
      exact ih

/-- An absent key reads as none. -/
theorem getKey_none_of_not_any (k : String) :
    ∀ obj : List (String × JValue), obj.any (fun kv => kv.1 = k) = false →
      getKey obj k = none := by
  intro obj
  induction obj with
  | nil => intro _; rfl
  | cons a rest ih =>
    intro h
    obtain ⟨ak, av⟩ := a
    simp only [List.any_cons, Bool.or_eq_false_iff] at h
    rw [getKey_cons, if_neg (show ¬ ((ak, av) : String × JValue).1 = k by simpa using h.1)]
    exact ih h.2

/-- JS assignment followed by a read of the same key. -/
theorem getKey_setKey_self (obj : List (String × JValue)) (k : String) (v : JValue) :
    getKey (setKey obj k v) k = some v := by
  unfold setKey
  by_cases h : obj.any (fun kv => kv.1 = k) = true
  · rw [if_pos h]
    exact getKey_map_set_self k v obj h
  · rw [if_neg h, getKey_append, getKey_none_of_not_any k obj (by simp only [Bool.not_eq_true] at h; exact h)]
    simp [getKey]

/-- JS assignment leaves reads of other keys unchanged. -/
theorem getKey_setKey_ne (obj : List (String × JValue)) (k k2 : String) (v : JValue)
    (h : ¬ k2 = k) :
    getKey (setKey obj k v) k2 = getKey obj k2 := by
  unfold setKey
  by_cases ha : obj.any (fun kv => kv.1 = k) = true
  · rw [if_pos ha]
    exact getKey_map_set_ne k k2 v h obj
  · rw [if_neg ha, getKey_append]
    cases hg : getKey obj k2 with
    | some w => rfl
    | none =>
      rw [getKey_cons, if_neg (show ¬ ((k, v) : String × JValue).1 = k2 from fun hh => h hh.symm)]
      rfl

/-- The name step only ever writes the key `name`. -/
theorem getKey_nameStep_ne (n : Option String) (obj : List (String × JValue)) (k : String)
    (h : ¬ k = "name") : getKey (nameStep n obj) k = getKey obj k := by
  cases n with
  | none => rfl
  | some s => exact getKey_setKey_ne obj "name" k _ h

/-- The info step only ever writes the keys `id` and `category`. -/
theorem getKey_infoStep_ne (info : Option String) (obj : List (String × JValue)) (k : String)
    (h1 : ¬ k = "id") (h2 : ¬ k = "category") :
    getKey (infoStep info obj) k = getKey obj k := by
  cases info with
  | none => rfl
  | some s =>
    simp only [infoStep]
    split
    · rw [getKey_setKey_ne _ _ _ _ h2]
      split
      · split
        · split <;> rw [getKey_setKey_ne _ _ _ _ h1]
        · rfl
      · rfl
    · split
      · split
        · split <;> rw [getKey_setKey_ne _ _ _ _ h1]
        · rfl
      · rfl

/-- Unfolding of the detail-block loop at a cons cell. -/
theorem sectionsStep_cons (sec : RawSection) (rest : List RawSection)
    (obj : List (String × JValue)) :
    sectionsStep (sec :: rest) obj
      = sectionsStep rest
          (match sec.label with
           | none => obj
           | some lbl =>
             if trimStr lbl = "" then obj
             else
               setKey obj (jsKeyOf (trimStr lbl))
                 (match sec.value with
                  | some w => JValue.str (trimStr w)
                  | none => JValue.null)) := rfl

/-- The detail-block loop does not touch a key that no section label maps
to. -/
theorem getKey_sectionsStep_ne (k : String) :
    ∀ (secs : List RawSection) (obj : List (String × JValue)),
      (∀ sec ∈ secs, ∀ l, sec.label = some l → ¬ k = jsKeyOf (trimStr l)) →
      getKey (sectionsStep secs obj) k = getKey obj k := by
  intro secs
  induction secs with
  | nil => intro obj _; rfl
  | cons sec rest ih =>
    intro obj h
    rw [sectionsStep_cons]
    cases hl : sec.label with
    | none =>
      rw [ih _ (fun s hs => h s (List.mem_cons_of_mem _ hs))]
    | some lbl =>
      dsimp only
      by_cases ht : trimStr lbl = ""
      · rw [if_pos ht, ih _ (fun s hs => h s (List.mem_cons_of_mem _ hs))]
      · rw [if_neg ht, ih _ (fun s hs => h s (List.mem_cons_of_mem _ hs)),
            getKey_setKey_ne _ _ _ _ (h sec (List.mem_cons_self _ _) lbl hl)]

/-- The price step only ever writes the key `price_value`. -/
theorem getKey_priceStep_ne (obj : List (String × JValue)) (k : String)
    (h : ¬ k = "price_value") : getKey (priceStep obj) k = getKey obj k := by
  unfold priceStep
  split
  · split
    · split <;> exact getKey_setKey_ne _ _ _ _ h
    · rfl
  · rfl

/-- Without a `price` key, `priceStep` is the identity. -/
theorem priceStep_of_no_price (obj : List (String × JValue))
    (h : getKey obj "price" = none) : priceStep obj = obj := by
  unfold priceStep
  rw [h]

/-- Counterexample for C7: in the record built from a container whose
detail section is labeled `Description` and whose id text `abc` is
unparsable, the section value is NOT stored under `description` (the
lower-cased, whitespace-normalized label) but under `de_cription` (the
regex `/s+/g` in the page script replaces runs of the letter `s`), and the
`id` key is present with value `null` rather than absent. -/
theorem detail_key_and_id_cex :
    getKey (productOfContainer "T"
        ⟨none, some "ID: abc", [⟨some "Description", some "Steel frame"⟩]⟩)
        "description" = none
    ∧ getKey (productOfContainer "T"
        ⟨none, some "ID: abc", [⟨some "Description", some "Steel frame"⟩]⟩)
        "de_cription" = some (JValue.str "Steel frame")
    ∧ getKey (productOfContainer "T"
        ⟨none, some "ID: abc", [⟨some "Description", some "Steel frame"⟩]⟩)
        "id" = some JValue.null :=
  ⟨rfl, rfl, rfl⟩

/-- C7 as amended: a labeled detail section is stored under the key
obtained from the label by lower-casing and replacing each maximal run of
the letter `s` by one underscore (whitespace is not normalized), e.g.
`Description ↦ de_cription`, `Dimensions ↦ dimen_ion_`,
`Updated ↦ updated`; the `id` field is an integer when the id text parses
and is present with value `null` (not absent) when it does not. -/
theorem detail_key_and_id_actual :
    (∀ (now l v : String), ¬ trimStr l = "" →
      ¬ jsKeyOf (trimStr l) = "extracted_at" → ¬ jsKeyOf (trimStr l) = "price_value" →
      getKey (productOfContainer now ⟨none, none, [⟨some l, some v⟩]⟩) (jsKeyOf (trimStr l))
        = some (JValue.str (trimStr v)))
    ∧ jsKeyOf "Description" = "de_cription"
    ∧ jsKeyOf "Dimensions" = "dimen_ion_"
    ∧ jsKeyOf "Updated" = "updated"
    ∧ (∀ now : String,
        getKey (productOfContainer now ⟨none, some "ID: 95", []⟩) "id"
          = some (JValue.int 95))
    ∧ (∀ now : String,
        getKey (productOfContainer now ⟨none, some "ID: abc", []⟩) "id"
          = some JValue.null) := by
  refine ⟨?_, rfl, rfl, rfl, fun now => rfl, fun now => rfl⟩
  intro now l v hne hk1 hk2
  show getKey (setKey (priceStep (sectionsStep [⟨some l, some v⟩]
      (infoStep none (nameStep none [])))) "extracted_at" (JValue.str now))
      (jsKeyOf (trimStr l)) = some (JValue.str (trimStr v))
  rw [getKey_setKey_ne _ _ _ _ hk1, getKey_priceStep_ne _ _ hk2]
  have hs : sectionsStep [⟨some l, some v⟩] (infoStep none (nameStep none []))
      = setKey [] (jsKeyOf (trimStr l)) (JValue.str (trimStr v)) := by
    show (if trimStr l = "" then ([] : List (String × JValue))
          else setKey [] (jsKeyOf (trimStr l)) (JValue.str (trimStr v)))
        = setKey [] (jsKeyOf (trimStr l)) (JValue.str (trimStr v))
    rw [if_neg hne]
  rw [hs, getKey_setKey_self]

/-- Witness for the amended C7 at a concrete section label. -/
theorem detail_key_and_id_actual_witness :
    getKey (productOfContainer "T" ⟨none, none, [⟨some "Colours", some "red"⟩]⟩)
        (jsKeyOf (trimStr "Colours")) = some (JValue.str (trimStr "red")) :=
  detail_key_and_id_actual.1 "T" "Colours" "red" (by decide) (by decide) (by decide)

/-- Counterexample for C8: a record whose price text `N/A` does not parse
as a number carries `price_value` with value `null` — the key is present,
not absent as claimed. -/
theorem price_value_null_cex :
    getKey (productOfContainer "T" ⟨none, none, [⟨some "Price", some "N/A"⟩]⟩)
        "price_value" = some JValue.null
    ∧ ¬ getKey (productOfContainer "T" ⟨none, none, [⟨some "Price", some "N/A"⟩]⟩)
        "price_value" = none :=
  ⟨rfl, by decide⟩

/-- C8 as amended: when no detail section yields a `price` (or
`price_value`) key, `price_value` is absent from the record; when the
price text does not parse as a number, `price_value` is present with
value `null`; and price text `$1,234.56` yields `price_value = 1234.56`. -/
theorem price_value_behavior_actual :
    (∀ (now : String) (c : RawContainer),
      (∀ sec ∈ c.sections, ∀ l, sec.label = some l →
          ¬ jsKeyOf (trimStr l) = "price" ∧ ¬ jsKeyOf (trimStr l) = "price_value") →
      getKey (productOfContainer now c) "price_value" = none)
    ∧ (∀ (now v : String), ¬ trimStr v = "" →
        parseFloatJS (cleanNumeric (trimStr v)) = none →
        getKey (productOfContainer now ⟨none, none, [⟨some "Price", some v⟩]⟩)
          "price_value" = some JValue.null)
    ∧ getKey (productOfContainer "T" ⟨none, none, [⟨some "Price", some "$1,234.56"⟩]⟩)
        "price_value" = some (JValue.num (mkRat 123456 100)) := by
  refine ⟨?_, ?_, by decide⟩
  · intro now c h
    show getKey (setKey (priceStep (sectionsStep c.sections
        (infoStep c.info (nameStep c.name [])))) "extracted_at" (JValue.str now))
        "price_value" = none
    rw [getKey_setKey_ne _ _ _ _ (by decide)]
    have hbase : ∀ k2 : String, ¬ k2 = "name" → ¬ k2 = "id" → ¬ k2 = "category" →
        getKey (infoStep c.info (nameStep c.name [])) k2 = none := by
      intro k2 hn hi hc
      rw [getKey_infoStep_ne _ _ _ hi hc, getKey_nameStep_ne _ _ _ hn]
      rfl
    have hprice : getKey (sectionsStep c.sections
        (infoStep c.info (nameStep c.name []))) "price" = none := by
      rw [getKey_sectionsStep_ne _ _ _ (fun sec hs l hl hh => (h sec hs l hl).1 hh.symm)]
      exact hbase "price" (by decide) (by decide) (by decide)
    rw [priceStep_of_no_price _ hprice,
        getKey_sectionsStep_ne _ _ _ (fun sec hs l hl hh => (h sec hs l hl).2 hh.symm)]
    exact hbase "price_value" (by decide) (by decide) (by decide)
  · intro now v hne hparse
    show getKey (setKey (priceStep (sectionsStep [⟨some "Price", some v⟩]
        (infoStep none (nameStep none [])))) "extracted_at" (JValue.str now))
        "price_value" = some JValue.null
    rw [getKey_setKey_ne _ _ _ _ (by decide)]
    have hs : sectionsStep [⟨some "Price", some v⟩] (infoStep none (nameStep none []))
        = [("price", JValue.str (trimStr v))] := by
      show (if trimStr "Price" = "" then ([] : List (String × JValue))
            else setKey [] (jsKeyOf (trimStr "Price")) (JValue.str (trimStr v)))
          = [("price", JValue.str (trimStr v))]
      rw [if_neg (by decide)]
      rfl
    rw [hs]
    unfold priceStep
    rw [show getKey [("price", JValue.str (trimStr v))] "price" = some (JValue.str (trimStr v)) from rfl]
    dsimp only
    rw [if_pos hne, hparse]
    exact getKey_setKey_self _ _ _

/-- Witness for the amended C8 at concrete records. -/
theorem price_value_behavior_actual_witness :
    getKey (productOfContainer "T" ⟨some "Widget", none, []⟩) "price_value" = none
    ∧ getKey (productOfContainer "T" ⟨none, none, [⟨some "Price", some "unknown"⟩]⟩)
        "price_value" = some JValue.null :=
  ⟨price_value_behavior_actual.1 "T" ⟨some "Widget", none, []⟩ (by simp),
   price_value_behavior_actual.2.1 "T" "unknown" (by decide) (by decide)⟩

/-- Counterexample for C2: on the snapshot-length sequence
`[0, 100, 250, 250, 250, 250]` with `batch_size = 100` and stall
threshold 3, the run's emitted batches have sizes `[100, 150, 0]` — not
`[100, 100, 50]` as claimed: the second flush takes the whole 150-record
delta, and the stall flush is empty. -/
theorem scenarioA_batch_sizes_cex :
    (extract_product_data_in_batches 100 (pageOfSnaps snapsA) 20).map
        (fun r => r.2.batches.map (fun b => b.products_in_batch)) = some [100, 150, 0]
    ∧ ¬ (extract_product_data_in_batches 100 (pageOfSnaps snapsA) 20).map
        (fun r => r.2.batches.map (fun b => b.products_in_batch)) = some [100, 100, 50] :=
  ⟨rfl, by decide⟩

/-- C2 as amended: the run on scenario A emits exactly three batches —
batch 1 with the first 100 records (threshold flush), batch 2 with the
next 150 records (the whole delta is flushed, it is not capped at
`batch_size`), batch 3 an empty forced flush at stall detection — and the
final output reports 250 products in 3 batches. -/
theorem scenarioA_actual_batches :
    extract_product_data_in_batches 100 (pageOfSnaps snapsA) 20
      = some (5, { all_products := List.range 250, batch_number := 4,
                   batches := [⟨1, 100, 100, List.range 100⟩,
                               ⟨2, 150, 250, (List.range 250).drop 100⟩,
                               ⟨3, 0, 250, ([] : List Nat)⟩] })
    ∧ create_final_output 100
        ({ all_products := List.range 250, batch_number := 4,
           batches := [⟨1, 100, 100, List.range 100⟩,
                       ⟨2, 150, 250, (List.range 250).drop 100⟩,
                       ⟨3, 0, 250, ([] : List Nat)⟩] } : AccState Nat)
      = { total_products := 250, total_batches := 3, batch_size := 100,
          products := List.range 250 } :=
  ⟨rfl, rfl⟩

/-- Witness for C10 on a concrete state with an already-covered
snapshot. -/
theorem forced_flush_empty_batch_file_witness :
    extract_and_save_current_batch 250 ([3] : List Nat) true
        ⟨[3], 2, []⟩
      = ⟨[3], 3, [⟨2, 0, 1, []⟩]⟩ := by
  have h := (forced_flush_empty_batch_file (α := Nat)).1 250 [3] ⟨[3], 2, []⟩ (by simp)
  simpa using h

end IdenChallenge
